import Mathlib

/-!
Verification of the Jira ticket scraper (`jira_scraper.py`) against its
natural-language specification.

The Python source is shallowly embedded: strings are `List Char` (wrapped in
`String` where convenient), Python `None`-able values are `Option`, values
that may raise an uncaught Python exception are `Except String`.  The
embedding covers the ASCII fragment of Python's `str.lower` and of the
regex character class `\w` (`[A-Za-z0-9_]`), which is the domain all the
claims live in.  The JSON model covers objects, arrays, strings (with the
standard single-character escapes), integer numbers, booleans and null.
-/

/-! ## Basic character and list utilities -/

/-- ASCII fragment of Python `str.lower`, character by character. -/
def pyLowerChar (c : Char) : Char :=
  if 65 ≤ c.toNat ∧ c.toNat ≤ 90 then Char.ofNat (c.toNat + 32) else c

/-- Python `str.lower` on the ASCII fragment. -/
def pyLower (l : List Char) : List Char := l.map pyLowerChar

/-- Whitespace stripped by Python `str.strip()`. -/
def isPySpace (c : Char) : Bool :=
  c == ' ' || c == '\t' || c == '\n' || c == '\r' || c == '\x0b' || c == '\x0c'

/-- Python `str.strip()`: remove leading and trailing whitespace. -/
def pyStrip (l : List Char) : List Char :=
  ((l.dropWhile isPySpace).reverse.dropWhile isPySpace).reverse

/-- Python `str.strip('_')`: remove leading and trailing underscores. -/
def stripUnderscore (l : List Char) : List Char :=
  ((l.dropWhile (· == '_')).reverse.dropWhile (· == '_')).reverse

/-- Does `pat` occur as a contiguous substring of `l`?  (Python `pat in l`.) -/
def containsSeq (pat : List Char) : List Char → Bool
  | [] => pat.isEmpty
  | c :: cs => pat.isPrefixOf (c :: cs) || containsSeq pat cs

/-- Concatenation of the images of every character, used to state what a
browser does to a text node (each character encoded independently). -/
def mapConcat (f : Char → List Char) : List Char → List Char
  | [] => []
  | c :: cs => f c ++ mapConcat f cs

/-! ## HTML entity decoding, as inlined in `fetch_tickets_via_api` and
`get_transitions`:
`.replace('&lt;','<').replace('&gt;','>').replace('&amp;','&').replace('&quot;','"')`.
Each pass is Python `str.replace`: scan left to right, replace every
non-overlapping occurrence, continue after the replacement. -/

/-- `str.replace('&lt;', '<')`. -/
def decodeLt : List Char → List Char
  | '&' :: 'l' :: 't' :: ';' :: rest => '<' :: decodeLt rest
  | c :: rest => c :: decodeLt rest
  | [] => []

/-- `str.replace('&gt;', '>')`. -/
def decodeGt : List Char → List Char
  | '&' :: 'g' :: 't' :: ';' :: rest => '>' :: decodeGt rest
  | c :: rest => c :: decodeGt rest
  | [] => []

/-- `str.replace('&amp;', '&')`. -/
def decodeAmp : List Char → List Char
  | '&' :: 'a' :: 'm' :: 'p' :: ';' :: rest => '&' :: decodeAmp rest
  | c :: rest => c :: decodeAmp rest
  | [] => []

/-- `str.replace('&quot;', '"')`. -/
def decodeQuot : List Char → List Char
  | '&' :: 'q' :: 'u' :: 'o' :: 't' :: ';' :: rest => '"' :: decodeQuot rest
  | c :: rest => c :: decodeQuot rest
  | [] => []

/-- The four `str.replace` calls of the source, in source order. -/
def decodeEntities (l : List Char) : List Char :=
  decodeQuot (decodeAmp (decodeGt (decodeLt l)))

/-! ## The regex searches of the extraction code.

`re.search(r'<pre[^>]*>(.*?)</pre>', content, re.DOTALL)` (and the same with
`body`): leftmost match wins; `[^>]*>` deterministically runs to the first
`>`; the non-greedy group ends at the first occurrence of the closing tag.
`re.sub(r'<[^>]+>', '', text)` removes every tag-shaped span. -/

/-- Consume `[^>]*>`: drop characters up to and including the first `>`. -/
def dropThroughGt : List Char → Option (List Char)
  | [] => none
  | '>' :: rest => some rest
  | _ :: rest => dropThroughGt rest

/-- Characters before the first occurrence of `pat` (`none` if it does not
occur): the non-greedy group `(.*?)` followed by the literal `pat`. -/
def splitAtFirst (pat : List Char) : List Char → Option (List Char)
  | [] => none
  | c :: cs =>
    if pat.isPrefixOf (c :: cs) then some []
    else (splitAtFirst pat cs).map (c :: ·)

/-- Try to match `openTag [^>]*> (.*?) closeTag` at the current position,
returning the group. -/
def tryTagAt (openTag closeTag l : List Char) : Option (List Char) :=
  if openTag.isPrefixOf l then
    match dropThroughGt (l.drop openTag.length) with
    | some rest => splitAtFirst closeTag rest
    | none => none
  else none

/-- `re.search` for `openTag [^>]*> (.*?) closeTag`: leftmost match. -/
def tagSearch (openTag closeTag : List Char) : List Char → Option (List Char)
  | [] => none
  | c :: cs =>
    match tryTagAt openTag closeTag (c :: cs) with
    | some g => some g
    | none => tagSearch openTag closeTag cs

/-- One-pass state machine for `re.sub(r'<[^>]+>', '', text)`.  The first
argument buffers (reversed) the characters of a potential tag opened by `<`;
a closing `>` with a non-empty interior discards the buffer, a `>` right
after `<` emits the literal `<>`, end of input emits the buffer verbatim. -/
def stripTagsAux : Option (List Char) → List Char → List Char
  | none, [] => []
  | none, c :: cs => if c = '<' then stripTagsAux (some ['<']) cs else c :: stripTagsAux none cs
  | some buf, [] => buf.reverse
  | some buf, c :: cs =>
    if c = '>' then
      if buf = ['<'] then '<' :: '>' :: stripTagsAux none cs
      else stripTagsAux none cs
    else stripTagsAux (some (c :: buf)) cs

/-- `re.sub(r'<[^>]+>', '', text)`. -/
def stripTags (l : List Char) : List Char := stripTagsAux none l

/-! ## JSON model and a model of `json.loads`. -/

/-- JSON values (numbers restricted to integers, which is all the program's
data needs). -/
inductive Json where
  | null : Json
  | bool : Bool → Json
  | num : Int → Json
  | str : String → Json
  | arr : List Json → Json
  | obj : List (String × Json) → Json
  deriving Repr

/-- JSON whitespace accepted by `json.loads`. -/
def isJsonWs (c : Char) : Bool := c == ' ' || c == '\t' || c == '\n' || c == '\r'

/-- Skip JSON whitespace. -/
def skipWs (l : List Char) : List Char := l.dropWhile isJsonWs

/-- Single-character JSON string escapes. -/
def unescape (c : Char) : Option Char :=
  if c = '"' then some '"'
  else if c = '\\' then some '\\'
  else if c = '/' then some '/'
  else if c = 'b' then some '\x08'
  else if c = 'f' then some '\x0c'
  else if c = 'n' then some '\n'
  else if c = 'r' then some '\r'
  else if c = 't' then some '\t'
  else none

/-- Parse the body of a JSON string literal (after the opening quote),
returning the decoded characters and the input after the closing quote. -/
def parseStringBody : List Char → Option (List Char × List Char)
  | '"' :: rest => some ([], rest)
  | '\\' :: e :: rest =>
    match unescape e with
    | some c => (parseStringBody rest).map (fun p => (c :: p.1, p.2))
    | none => none
  | c :: rest => (parseStringBody rest).map (fun p => (c :: p.1, p.2))
  | [] => none

/-- Is `c` an ASCII digit? -/
def isDigitChar (c : Char) : Bool := '0' ≤ c && c ≤ '9'

/-- Accumulate a run of digits into a number. -/
def parseDigits (acc : Nat) : List Char → Nat × List Char
  | c :: rest =>
    if isDigitChar c then parseDigits (acc * 10 + (c.toNat - 48)) rest
    else (acc, c :: rest)
  | [] => (acc, [])

mutual

/-- Parse one JSON value, returning it with the remaining input. -/
def parseValue : Nat → List Char → Option (Json × List Char)
  | 0, _ => none
  | fuel + 1, l =>
    match skipWs l with
    | '{' :: rest => (parseMembers fuel (skipWs rest)).map (fun p => (Json.obj p.1, p.2))
    | '[' :: rest => (parseElems fuel (skipWs rest)).map (fun p => (Json.arr p.1, p.2))
    | '"' :: rest => (parseStringBody rest).map (fun p => (Json.str (String.mk p.1), p.2))
    | 't' :: 'r' :: 'u' :: 'e' :: rest => some (Json.bool true, rest)
    | 'f' :: 'a' :: 'l' :: 's' :: 'e' :: rest => some (Json.bool false, rest)
    | 'n' :: 'u' :: 'l' :: 'l' :: rest => some (Json.null, rest)
    | '-' :: c :: rest =>
      if isDigitChar c then
        let p := parseDigits (c.toNat - 48) rest
        some (Json.num (-(p.1 : Int)), p.2)
      else none
    | c :: rest =>
      if isDigitChar c then
        let p := parseDigits (c.toNat - 48) rest
        some (Json.num (p.1 : Int), p.2)
      else none
    | [] => none

/-- Parse the members of an object, input already past `{` and whitespace. -/
def parseMembers : Nat → List Char → Option (List (String × Json) × List Char)
  | 0, _ => none
  | fuel + 1, l =>
    match l with
    | '}' :: rest => some ([], rest)
    | _ =>
      match parseOneMember fuel l with
      | some (kv, r) => (parseMembersRest fuel (skipWs r)).map (fun p => (kv :: p.1, p.2))
      | none => none

/-- Parse `, key : value` continuations of an object, or the closing `}`. -/
def parseMembersRest : Nat → List Char → Option (List (String × Json) × List Char)
  | 0, _ => none
  | fuel + 1, l =>
    match l with
    | '}' :: rest => some ([], rest)
    | ',' :: rest =>
      match parseOneMember fuel (skipWs rest) with
      | some (kv, r) => (parseMembersRest fuel (skipWs r)).map (fun p => (kv :: p.1, p.2))
      | none => none
    | _ => none

/-- Parse a single `"key" : value` pair. -/
def parseOneMember : Nat → List Char → Option ((String × Json) × List Char)
  | 0, _ => none
  | fuel + 1, l =>
    match l with
    | '"' :: rest =>
      match parseStringBody rest with
      | some (k, r) =>
        match skipWs r with
        | ':' :: r2 => (parseValue fuel r2).map (fun p => ((String.mk k, p.1), p.2))
        | _ => none
      | none => none
    | _ => none

/-- Parse the elements of an array, input already past `[` and whitespace. -/
def parseElems : Nat → List Char → Option (List Json × List Char)
  | 0, _ => none
  | fuel + 1, l =>
    match l with
    | ']' :: rest => some ([], rest)
    | _ =>
      match parseValue fuel l with
      | some (v, r) => (parseElemsRest fuel (skipWs r)).map (fun p => (v :: p.1, p.2))
      | none => none

/-- Parse `, value` continuations of an array, or the closing `]`. -/
def parseElemsRest : Nat → List Char → Option (List Json × List Char)
  | 0, _ => none
  | fuel + 1, l =>
    match l with
    | ']' :: rest => some ([], rest)
    | ',' :: rest =>
      match parseValue fuel rest with
      | some (v, r) => (parseElemsRest fuel (skipWs r)).map (fun p => (v :: p.1, p.2))
      | none => none
    | _ => none

end

/-- Model of `json.loads`: parse exactly one JSON document, allowing
surrounding whitespace, failing (`none`, the `JSONDecodeError` case) on
anything else. -/
def json_loads (l : List Char) : Option Json :=
  match parseValue (3 * l.length + 3) l with
  | some (v, rest) => if skipWs rest = [] then some v else none
  | none => none

/-! ## The JSON-extraction routine, inlined identically in
`fetch_tickets_via_api` (lines 335-357) and `get_transitions` (lines
143-162): try `<pre[^>]*>(.*?)</pre>` first, then `<body[^>]*>(.*?)</body>`
(stripped and tag-sub'ed), else the whole content verbatim; entity-decode
in the first two branches; then `json.loads`. -/

/-- Isolate the candidate JSON text from the rendered page content. -/
def extract_json_text (content : List Char) : List Char :=
  match tagSearch "<pre".data "</pre>".data content with
  | some g => decodeEntities g
  | none =>
    match tagSearch "<body".data "</body>".data content with
    | some g => decodeEntities (stripTags (pyStrip g))
    | none => content

/-- The full extraction routine: isolate, then parse; a parse failure is
caught (`except json.JSONDecodeError`) and reported as `None`. -/
def extract_json (content : List Char) : Option Json :=
  json_loads (extract_json_text content)

/-! ## The claim C1 premise: a browser rendering a raw JSON body wraps the
text in a `<pre>` element, encoding the four standard HTML entities in each
text character (modelled character-wise, `&` to `&amp;`, `<` to `&lt;`,
`>` to `&gt;`, `"` to `&quot;`). -/

/-- Browser encoding of one text character. -/
def browserEncodeChar (c : Char) : List Char :=
  if c = '&' then "&amp;".data
  else if c = '<' then "&lt;".data
  else if c = '>' then "&gt;".data
  else if c = '"' then "&quot;".data
  else [c]

/-- Browser encoding of a whole text. -/
def browserEncode (s : List Char) : List Char := mapConcat browserEncodeChar s

/-- Rendered page content for a raw body `s`: `s` entity-encoded and wrapped
in a `<pre>` element (the claim's premise). -/
def renderPre (s : List Char) : List Char :=
  "<pre>".data ++ browserEncode s ++ "</pre>".data

/-! ## `get_transitions` (result processing, lines 136-162).

The navigation itself is external; the function is modelled on the response
status and rendered content.  A non-200 status or a `JSONDecodeError` gives
`None`; otherwise the code runs `data.get("transitions", [])`, which on a
non-dict `data` raises an uncaught `AttributeError` (modelled as
`Except.error`). -/

/-- `get_transitions`, given the HTTP status and the rendered content. -/
def get_transitions (status : Nat) (content : List Char) : Except String (Option Json) :=
  if status ≠ 200 then .ok none
  else
    match json_loads (extract_json_text content) with
    | none => .ok none
    | some data =>
      match data with
      | .obj kvs => .ok (some ((kvs.lookup "transitions").getD (Json.arr [])))
      | _ => .error "AttributeError: object has no attribute get"

/-! ## Transitions (`find_transition_by_status`, lines 165-182, and
`change_ticket_status`, lines 238-287). -/

/-- The destination object of a transition (`transition["to"]`), with an
optional `name`; `Option` models an absent key. -/
structure ToStatus where
  name : Option String
  deriving Repr, DecidableEq

/-- One transition record as used by the source: `id`, `name`, `to.name`,
each possibly absent. -/
structure Transition where
  id : Option String
  name : Option String
  toStatus : Option ToStatus
  deriving Repr, DecidableEq

/-- `transition.get("to", {}).get("name", "")`. -/
def destName (t : Transition) : String :=
  match t.toStatus with
  | some ts => ts.name.getD ""
  | none => ""

/-- Python `str.lower` at the `String` level. -/
def pyLowerStr (s : String) : String := String.mk (pyLower s.data)

/-- `find_transition_by_status`: first transition whose destination status
name equals the target case-insensitively, else `None`. -/
def find_transition_by_status (transitions : List Transition) (target_status : String) :
    Option Transition :=
  match transitions with
  | [] => none
  | t :: rest =>
    if pyLowerStr (destName t) = pyLowerStr target_status then some t
    else find_transition_by_status rest target_status

/-- `change_ticket_status`, abstracted over the result of `get_transitions`
(`transitionsResult`) and over `execute_transition`'s success outcome
(`exec`).  The second component of the result records the transition ids
passed to `execute_transition`, so "performs no state-changing request" is
"that list is empty".  `False` is the reported-failure outcome (the log
lines carry the diagnostic). -/
def change_ticket_status (transitionsResult : Option (List Transition))
    (target_status : String) (exec : Option String → Bool) : Bool × List (Option String) :=
  match transitionsResult with
  | none => (false, [])
  | some transitions =>
    if transitions.isEmpty then (false, [])
    else
      match find_transition_by_status transitions target_status with
      | none => (false, [])
      | some transition => (exec transition.id, [transition.id])

/-! ## `build_jql_query` (lines 290-307). -/

/-- `build_jql_query`: parts list, then `" AND ".join(parts[:-1]) + " " +
parts[-1]`.  Python's `if status:` is false for both `None` and `""`. -/
def build_jql_query (status : Option String) : String :=
  let query_parts := ["assignee = currentUser()"]
  let query_parts :=
    match status with
    | some s => if s = "" then query_parts else query_parts ++ ["status = '" ++ s ++ "'"]
    | none => query_parts
  let query_parts := query_parts ++ ["ORDER BY updated DESC"]
  String.intercalate " AND " query_parts.dropLast ++ " " ++ query_parts.getLastD ""

/-! ## `format_ticket` (lines 364-385), `sanitize_folder_name` (lines
388-400), `save_ticket_description` (lines 403-435). -/

/-- The Jira base URL (`JIRA_BASE_URL`). -/
def JIRA_BASE_URL : String := "https://jira.tools.sap"

/-- A field of the raw issue record: absent key, key present with JSON
`null`, or a proper value. -/
inductive PyField (α : Type) where
  | absent : PyField α
  | null : PyField α
  | val : α → PyField α
  deriving Repr, DecidableEq

/-- The `fields` sub-object of a raw issue.  The name-carrying sub-objects
(`status`, `priority`, `assignee`, `reporter`) are modelled by the string
the code reads out of them (`name` or `displayName`); `summary`, `created`
and `updated` are plain strings that may be absent. -/
structure RawFields where
  summary : Option String
  status : PyField String
  priority : PyField String
  assignee : PyField String
  reporter : PyField String
  labels : PyField (List String)
  created : Option String
  updated : Option String
  description : PyField String
  deriving Repr, DecidableEq

/-- A raw issue record: `issue.get("key", "N/A")` and
`issue.get("fields", {})`. -/
structure RawIssue where
  key : Option String
  fields : Option RawFields
  deriving Repr, DecidableEq

/-- The empty `fields` dict (`{}`). -/
def emptyRawFields : RawFields :=
  { summary := none, status := .absent, priority := .absent, assignee := .absent
    reporter := .absent, labels := .absent, created := none, updated := none
    description := .absent }

/-- The normalized ticket produced by `format_ticket`. -/
structure Ticket where
  key : String
  summary : String
  status : String
  priority : String
  assignee : String
  reporter : String
  labels : String
  created : String
  updated : String
  description : String
  url : String
  deriving Repr, DecidableEq

/-- `format_ticket`.  Mirrors the source's `.get` defaults and truthiness
tests; `", ".join(None)` (labels key present but null) raises an uncaught
`TypeError`, modelled as `Except.error`. -/
def format_ticket (issue : RawIssue) : Except String Ticket := do
  let fields := issue.fields.getD emptyRawFields
  let key := issue.key.getD "N/A"
  let labels ←
    match fields.labels with
    | .null => Except.error "TypeError: can only join an iterable"
    | .absent => pure ""
    | .val ls => pure (String.intercalate ", " ls)
  pure {
    key := key
    summary := fields.summary.getD "N/A"
    status := match fields.status with | .val n => n | _ => ""
    priority := match fields.priority with | .val n => n | _ => "N/A"
    assignee := match fields.assignee with | .val n => n | _ => "Unassigned"
    reporter := match fields.reporter with | .val n => n | _ => "N/A"
    labels := if labels = "" then "None" else labels
    created := fields.created.getD "N/A"
    updated := fields.updated.getD "N/A"
    description :=
      match fields.description with
      | .val d => if d = "" then "No description provided" else d
      | _ => "No description provided"
    url := JIRA_BASE_URL ++ "/browse/" ++ key }

/-- The regex class `\w` (ASCII fragment): letters, digits, underscore. -/
def isWordChar (c : Char) : Bool := c.isAlpha || c.isDigit || c == '_'

/-- One character of `re.sub(r'[^\w\-]', '_', s)`. -/
def subNonWordChar (c : Char) : Char :=
  if isWordChar c || c == '-' then c else '_'

/-- `re.sub(r'_+', '_', s)`: collapse runs of underscores. -/
def collapseUnderscores : List Char → List Char
  | [] => []
  | [c] => [c]
  | a :: b :: rest =>
    if a = '_' ∧ b = '_' then collapseUnderscores (b :: rest)
    else a :: collapseUnderscores (b :: rest)

/-- `sanitize_folder_name`: `"Unknown"` for a falsy name, else lowercase,
substitute non-word non-hyphen characters by `_`, collapse underscore runs,
strip leading/trailing underscores. -/
def sanitize_folder_name (name : String) : String :=
  if name = "" then "Unknown"
  else String.mk (stripUnderscore (collapseUnderscores
    ((pyLower name.data).map subNonWordChar)))

/-- `save_ticket_description`, modelled as the pure file-system effect: the
path written (relative to `OUTPUT_DIR`) and the file content. -/
def save_ticket_description (ticket : Ticket) : String × String :=
  let status_folder := sanitize_folder_name ticket.status
  let filepath := status_folder ++ "/" ++ ticket.key ++ ".txt"
  (filepath,
    "Ticket: " ++ ticket.key ++ "\n" ++
    "Summary: " ++ ticket.summary ++ "\n" ++
    "URL: " ++ ticket.url ++ "\n" ++
    "Status: " ++ ticket.status ++ "\n" ++
    "Priority: " ++ ticket.priority ++ "\n" ++
    "Assignee: " ++ ticket.assignee ++ "\n" ++
    "Reporter: " ++ ticket.reporter ++ "\n" ++
    "Labels: " ++ ticket.labels ++ "\n" ++
    "Created: " ++ ticket.created ++ "\n" ++
    "Updated: " ++ ticket.updated ++ "\n" ++
    "\n" ++
    "Description:\n" ++
    ticket.description ++ "\n")

/-! ## Concrete inputs used by the claim instances. -/

/-- The raw issue of the C9 scenario: key `ABC-1`, no status object, no
description (all other optional fields absent as well). -/
def c9Issue : RawIssue := { key := some "ABC-1", fields := some emptyRawFields }

/-- A transition whose destination status is `Done`. -/
def tDone : Transition :=
  { id := some "11", name := some "Start Progress", toStatus := some { name := some "Done" } }

/-- A transition whose destination status is `In Review`. -/
def tInReview : Transition :=
  { id := some "21", name := some "Review", toStatus := some { name := some "In Review" } }

/-! ## Claims -/

/-- C2 (code_bug): `format_ticket` is documented ("Handles missing/null
fields gracefully") and specified to never fault on absent/null optional
sub-objects, but a raw issue whose `labels` key is present with value
`null` makes `", ".join(None)` raise an uncaught `TypeError`. -/
theorem c2_format_ticket_labels_null_faults :
    format_ticket { key := some "ABC-1", fields := some { emptyRawFields with labels := .null } } =
      Except.error "TypeError: can only join an iterable" := rfl

/-- C3 (counterexample): `sanitize_folder_name` is not idempotent at the
empty string: `sanitize("") = "Unknown"` but `sanitize("Unknown") =
"unknown"`. -/
theorem c3_counterexample :
    sanitize_folder_name (sanitize_folder_name "") ≠ sanitize_folder_name "" := by
  decide

/-- C4 (counterexample): the claimed equation `sanitize("") = "unknown"`
fails; the code returns the capitalized literal `"Unknown"`. -/
theorem c4_counterexample :
    sanitize_folder_name "" = "Unknown" ∧ ("Unknown" : String) ≠ "unknown" :=
  ⟨rfl, by decide⟩

/-- C4 (amended): the three concrete equations hold with `"Unknown"`
(capitalized) for the empty string instead of `"unknown"`. -/
theorem c4_amended :
    sanitize_folder_name "In Progress" = "in_progress" ∧
    sanitize_folder_name "" = "Unknown" ∧
    sanitize_folder_name "Ready-for Review!!" = "ready-for_review" :=
  ⟨rfl, rfl, rfl⟩

/-- C5 (confirmed): `build_jql_query(None)` and `build_jql_query("Open")`
produce exactly the two specified query strings, with `AND` joining the
filter parts and the ordering clause appended last after a plain space. -/
theorem c5_build_jql_query :
    build_jql_query none = "assignee = currentUser() ORDER BY updated DESC" ∧
    build_jql_query (some "Open") =
      "assignee = currentUser() AND status = 'Open' ORDER BY updated DESC" :=
  ⟨rfl, rfl⟩

/-- C7 (confirmed): when transition discovery yields an empty list,
`change_ticket_status` returns the failure outcome and the list of
`execute_transition` invocations is empty. -/
theorem c7_empty_transitions_no_execute (target_status : String)
    (exec : Option String → Bool) :
    change_ticket_status (some []) target_status exec = (false, []) := rfl

/-- C9 (counterexample): for the `ABC-1` issue with absent status the
artifact path is `Unknown/ABC-1.txt` (capitalized), not the claimed
`unknown/ABC-1.txt`. -/
theorem c9_counterexample :
    (format_ticket c9Issue).map (fun t => (save_ticket_description t).1) =
      Except.ok "Unknown/ABC-1.txt" ∧
    ("Unknown/ABC-1.txt" : String) ≠ "unknown/ABC-1.txt" :=
  ⟨rfl, by decide⟩

/-- C9 (amended): the pipeline on the `ABC-1` issue writes the artifact at
`<output-root>/Unknown/ABC-1.txt` and its Description section body is the
sentinel `No description provided`. -/
theorem c9_amended_pipeline :
    (format_ticket c9Issue).map save_ticket_description =
      Except.ok ("Unknown/ABC-1.txt",
        "Ticket: ABC-1\nSummary: N/A\nURL: https://jira.tools.sap/browse/ABC-1\n" ++
        "Status: \nPriority: N/A\nAssignee: Unassigned\nReporter: N/A\nLabels: None\n" ++
        "Created: N/A\nUpdated: N/A\n\nDescription:\nNo description provided\n") := rfl

/-- C10 (counterexample): a 200 response whose body is the valid JSON `[]`
(which contains no `transitions` key) does not make `get_transitions`
return the empty list: `data.get` on a list raises an uncaught
`AttributeError`. -/
theorem c10_counterexample :
    json_loads (extract_json_text "[]".data) = some (Json.arr []) ∧
    get_transitions 200 "[]".data =
      Except.error "AttributeError: object has no attribute get" :=
  ⟨rfl, rfl⟩

/-- C10 (amended): when a 200 response body parses as a valid JSON object
with no `transitions` key, `get_transitions` returns the empty list (not
`None`), and `change_ticket_status` on an empty transition list reports
failure without invoking `execute_transition` — identical to a genuinely
empty transition set. -/
theorem c10_amended_missing_key (content : List Char) (kvs : List (String × Json))
    (target_status : String) (exec : Option String → Bool)
    (hparse : json_loads (extract_json_text content) = some (Json.obj kvs))
    (hkey : kvs.lookup "transitions" = none) :
    get_transitions 200 content = Except.ok (some (Json.arr [])) ∧
    change_ticket_status (some []) target_status exec = (false, []) := by
  refine ⟨?_, rfl⟩
  unfold get_transitions
  simp [hparse, hkey]

/-- Witness for C10: the concrete body `{}` parses as an object without a
`transitions` key and yields the empty transition list and the
no-execution failure outcome. -/
theorem c10_witness :
    get_transitions 200 "{}".data = Except.ok (some (Json.arr [])) ∧
    change_ticket_status (some []) "Done" (fun _ => true) = (false, []) :=
  c10_amended_missing_key "{}".data [] "Done" (fun _ => true) rfl rfl

/-- C1 (counterexample): the valid JSON document `"&quot;"` (a string whose
text contains the literal characters `&quot;`) does not round-trip: the
browser-rendered `<pre>` page decodes to the invalid text `"""` because the
source replaces `&amp;` before `&quot;`, so extraction returns `None`
instead of the document. -/
theorem c1_counterexample :
    json_loads "\"&quot;\"".data = some (Json.str "&quot;") ∧
    extract_json (renderPre "\"&quot;\"".data) = none :=
  ⟨rfl, rfl⟩

/-- C8 (counterexample): in the whole-content fallback branch the four HTML
entities are not decoded before parsing: content `"&amp;"` (no `<pre>`, no
`<body>`) parses verbatim to the string `&amp;`, while decoding first would
give the string `&`. -/
theorem c8_counterexample :
    extract_json "\"&amp;\"".data = some (Json.str "&amp;") ∧
    json_loads (decodeEntities "\"&amp;\"".data) = some (Json.str "&") ∧
    Json.str "&amp;" ≠ Json.str "&" :=
  ⟨rfl, rfl, fun h => by injection h with h'; exact absurd h' (by decide)⟩

/-- C6 (confirmed): `find_transition_by_status` returns the first
transition in list order whose destination status name compares equal to
the target after lowercasing both (exact comparison, no whitespace
normalization), and `None` exactly when no destination matches. -/
theorem c6_find_transition_first_match (transitions : List Transition)
    (target_status : String) :
    (∀ t, find_transition_by_status transitions target_status = some t →
      pyLowerStr (destName t) = pyLowerStr target_status ∧
      ∃ l₁ l₂, transitions = l₁ ++ t :: l₂ ∧
        ∀ u ∈ l₁, pyLowerStr (destName u) ≠ pyLowerStr target_status) ∧
    (find_transition_by_status transitions target_status = none ↔
      ∀ t ∈ transitions, pyLowerStr (destName t) ≠ pyLowerStr target_status) := by
  induction transitions with
  | nil => simp [find_transition_by_status]
  | cons hd tl ih =>
    by_cases hmatch : pyLowerStr (destName hd) = pyLowerStr target_status
    · constructor
      · intro t ht
        rw [find_transition_by_status, if_pos hmatch] at ht
        cases ht
        exact ⟨hmatch, [], tl, rfl, by simp⟩
      · rw [find_transition_by_status, if_pos hmatch]
        simp [hmatch]
    · constructor
      · intro t ht
        rw [find_transition_by_status, if_neg hmatch] at ht
        obtain ⟨hm, l₁, l₂, htl, hnone⟩ := ih.1 t ht
        refine ⟨hm, hd :: l₁, l₂, by rw [htl]; rfl, ?_⟩
        intro u hu
        rcases List.mem_cons.mp hu with h | h
        · exact h ▸ hmatch
        · exact hnone u h
      · rw [find_transition_by_status, if_neg hmatch]
        rw [ih.2]
        simp [hmatch]

/-- Witness for C6: among transitions to `Done` and `In Review`, the target
`done` (lowercase) selects the `Done` transition, first in order with no
earlier match. -/
theorem c6_witness :
    pyLowerStr (destName tDone) = pyLowerStr "done" ∧
    ∃ l₁ l₂, [tDone, tInReview] = l₁ ++ tDone :: l₂ ∧
      ∀ u ∈ l₁, pyLowerStr (destName u) ≠ pyLowerStr "done" :=
  (c6_find_transition_first_match [tDone, tInReview] "done").1 tDone rfl

/-- C8 (amended): the entity decode runs in the `<pre>` branch and in the
`<body>` branch (after strip and tag removal), the whole-content fallback
parses the content verbatim without decoding, and a parse failure yields
`None` rather than an unhandled fault. -/
theorem c8_amended_branch_decoding :
    (∀ content g, tagSearch "<pre".data "</pre>".data content = some g →
      extract_json_text content = decodeEntities g) ∧
    (∀ content g, tagSearch "<pre".data "</pre>".data content = none →
      tagSearch "<body".data "</body>".data content = some g →
      extract_json_text content = decodeEntities (stripTags (pyStrip g))) ∧
    (∀ content, tagSearch "<pre".data "</pre>".data content = none →
      tagSearch "<body".data "</body>".data content = none →
      extract_json_text content = content) ∧
    (∀ content, json_loads (extract_json_text content) = none →
      extract_json content = none) := by
  refine ⟨?_, ?_, ?_, ?_⟩ <;> intros <;> simp_all [extract_json_text, extract_json]

/-- Witness for C8: concrete contents exercising the `<pre>` branch, the
`<body>` branch, the verbatim fallback, and a parse failure. -/
theorem c8_witness :
    extract_json_text "<pre>{}</pre>".data = decodeEntities "{}".data ∧
    extract_json_text "<body> {} </body>".data =
      decodeEntities (stripTags (pyStrip " {} ".data)) ∧
    extract_json_text "{}".data = "{}".data ∧
    extract_json "nope".data = none :=
  ⟨c8_amended_branch_decoding.1 _ _ rfl,
   c8_amended_branch_decoding.2.1 _ _ rfl rfl,
   c8_amended_branch_decoding.2.2.1 _ rfl rfl,
   c8_amended_branch_decoding.2.2.2 _ rfl⟩

/-! ## The entity round-trip (claim C1).

The four decode passes are tracked through intermediate per-character
encodings: after the `&lt;` pass every `<` is literal again, after `&gt;`
every `>`, after `&amp;` every `&` — at which point the only remaining
entity is `&quot;`, and the final pass also rewrites any `&quot;` that was
literal text of the original document (the double-decode shown by the
counterexample). -/

/-- Per-character image of the encoded text after the `&lt;` pass. -/
def encAfterLt (c : Char) : List Char :=
  if c = '&' then "&amp;".data
  else if c = '<' then ['<']
  else if c = '>' then "&gt;".data
  else if c = '"' then "&quot;".data
  else [c]

/-- Per-character image of the encoded text after the `&gt;` pass. -/
def encAfterGt (c : Char) : List Char :=
  if c = '&' then "&amp;".data
  else if c = '"' then "&quot;".data
  else [c]

/-- Per-character image of the encoded text after the `&amp;` pass. -/
def encAfterAmp (c : Char) : List Char :=
  if c = '"' then "&quot;".data else [c]

theorem decodeLt_cons_of_ne (c : Char) (h : c ≠ '&') (r : List Char) :
    decodeLt (c :: r) = c :: decodeLt r := by
  rw [decodeLt.eq_def]
  split
  · simp_all
  · rename_i heq
    cases heq
    rfl
  · simp_all

theorem decodeGt_cons_of_ne (c : Char) (h : c ≠ '&') (r : List Char) :
    decodeGt (c :: r) = c :: decodeGt r := by
  rw [decodeGt.eq_def]
  split
  · simp_all
  · rename_i heq
    cases heq
    rfl
  · simp_all

theorem decodeAmp_cons_of_ne (c : Char) (h : c ≠ '&') (r : List Char) :
    decodeAmp (c :: r) = c :: decodeAmp r := by
  rw [decodeAmp.eq_def]
  split
  · simp_all
  · rename_i heq
    cases heq
    rfl
  · simp_all

theorem decodeQuot_cons_of_ne (c : Char) (h : c ≠ '&') (r : List Char) :
    decodeQuot (c :: r) = c :: decodeQuot r := by
  rw [decodeQuot.eq_def]
  split
  · simp_all
  · rename_i heq
    cases heq
    rfl
  · simp_all

theorem decodeQuot_amp_cons (r : List Char)
    (h : List.isPrefixOf ['q', 'u', 'o', 't', ';'] r = false) :
    decodeQuot ('&' :: r) = '&' :: decodeQuot r := by
  rw [decodeQuot.eq_def]
  split
  · next rest heq => simp_all [List.isPrefixOf]
  · rename_i heq
    cases heq
    rfl
  · simp_all

/-- The first pass turns every encoded `<` back into a literal `<` and
leaves the other entities alone. -/
theorem decodeLt_mapConcat (s : List Char) :
    decodeLt (mapConcat browserEncodeChar s) = mapConcat encAfterLt s := by
  induction s with
  | nil => rfl
  | cons c tl ih =>
    simp only [mapConcat]
    by_cases h1 : c = '&'
    · subst h1
      show decodeLt ('&' :: 'a' :: 'm' :: 'p' :: ';' :: mapConcat browserEncodeChar tl) =
        '&' :: 'a' :: 'm' :: 'p' :: ';' :: mapConcat encAfterLt tl
      rw [show ∀ r, decodeLt ('&' :: 'a' :: 'm' :: 'p' :: ';' :: r) =
        '&' :: 'a' :: 'm' :: 'p' :: ';' :: decodeLt r from fun r => rfl, ih]
    by_cases h2 : c = '<'
    · subst h2
      show decodeLt ('&' :: 'l' :: 't' :: ';' :: mapConcat browserEncodeChar tl) =
        '<' :: mapConcat encAfterLt tl
      rw [show ∀ r, decodeLt ('&' :: 'l' :: 't' :: ';' :: r) = '<' :: decodeLt r
        from fun r => rfl, ih]
    by_cases h3 : c = '>'
    · subst h3
      show decodeLt ('&' :: 'g' :: 't' :: ';' :: mapConcat browserEncodeChar tl) =
        '&' :: 'g' :: 't' :: ';' :: mapConcat encAfterLt tl
      rw [show ∀ r, decodeLt ('&' :: 'g' :: 't' :: ';' :: r) =
        '&' :: 'g' :: 't' :: ';' :: decodeLt r from fun r => rfl, ih]
    by_cases h4 : c = '"'
    · subst h4
      show decodeLt ('&' :: 'q' :: 'u' :: 'o' :: 't' :: ';' :: mapConcat browserEncodeChar tl) =
        '&' :: 'q' :: 'u' :: 'o' :: 't' :: ';' :: mapConcat encAfterLt tl
      rw [show ∀ r, decodeLt ('&' :: 'q' :: 'u' :: 'o' :: 't' :: ';' :: r) =
        '&' :: 'q' :: 'u' :: 'o' :: 't' :: ';' :: decodeLt r from fun r => rfl, ih]
    · simp only [browserEncodeChar, encAfterLt, if_neg h1, if_neg h2, if_neg h3, if_neg h4,
        List.singleton_append]
      rw [decodeLt_cons_of_ne c h1, ih]

/-- The second pass turns every encoded `>` back into a literal `>`. -/
theorem decodeGt_mapConcat (s : List Char) :
    decodeGt (mapConcat encAfterLt s) = mapConcat encAfterGt s := by
  induction s with
  | nil => rfl
  | cons c tl ih =>
    simp only [mapConcat]
    by_cases h1 : c = '&'
    · subst h1
      show decodeGt ('&' :: 'a' :: 'm' :: 'p' :: ';' :: mapConcat encAfterLt tl) =
        '&' :: 'a' :: 'm' :: 'p' :: ';' :: mapConcat encAfterGt tl
      rw [show ∀ r, decodeGt ('&' :: 'a' :: 'm' :: 'p' :: ';' :: r) =
        '&' :: 'a' :: 'm' :: 'p' :: ';' :: decodeGt r from fun r => rfl, ih]
    by_cases h2 : c = '<'
    · subst h2
      show decodeGt ('<' :: mapConcat encAfterLt tl) = '<' :: mapConcat encAfterGt tl
      rw [decodeGt_cons_of_ne '<' (by decide), ih]
    by_cases h3 : c = '>'
    · subst h3
      show decodeGt ('&' :: 'g' :: 't' :: ';' :: mapConcat encAfterLt tl) =
        '>' :: mapConcat encAfterGt tl
      rw [show ∀ r, decodeGt ('&' :: 'g' :: 't' :: ';' :: r) = '>' :: decodeGt r
        from fun r => rfl, ih]
    by_cases h4 : c = '"'
    · subst h4
      show decodeGt ('&' :: 'q' :: 'u' :: 'o' :: 't' :: ';' :: mapConcat encAfterLt tl) =
        '&' :: 'q' :: 'u' :: 'o' :: 't' :: ';' :: mapConcat encAfterGt tl
      rw [show ∀ r, decodeGt ('&' :: 'q' :: 'u' :: 'o' :: 't' :: ';' :: r) =
        '&' :: 'q' :: 'u' :: 'o' :: 't' :: ';' :: decodeGt r from fun r => rfl, ih]
    · simp only [encAfterLt, encAfterGt, if_neg h1, if_neg h2, if_neg h3, if_neg h4,
        List.singleton_append]
      rw [decodeGt_cons_of_ne c h1, ih]

/-- The third pass turns every encoded `&` back into a literal `&`; only
`&quot;` entities remain. -/
theorem decodeAmp_mapConcat (s : List Char) :
    decodeAmp (mapConcat encAfterGt s) = mapConcat encAfterAmp s := by
  induction s with
  | nil => rfl
  | cons c tl ih =>
    simp only [mapConcat]
    by_cases h1 : c = '&'
    · subst h1
      show decodeAmp ('&' :: 'a' :: 'm' :: 'p' :: ';' :: mapConcat encAfterGt tl) =
        '&' :: mapConcat encAfterAmp tl
      rw [show ∀ r, decodeAmp ('&' :: 'a' :: 'm' :: 'p' :: ';' :: r) = '&' :: decodeAmp r
        from fun r => rfl, ih]
    by_cases h2 : c = '"'
    · subst h2
      show decodeAmp ('&' :: 'q' :: 'u' :: 'o' :: 't' :: ';' :: mapConcat encAfterGt tl) =
        '&' :: 'q' :: 'u' :: 'o' :: 't' :: ';' :: mapConcat encAfterAmp tl
      rw [show ∀ r, decodeAmp ('&' :: 'q' :: 'u' :: 'o' :: 't' :: ';' :: r) =
        '&' :: 'q' :: 'u' :: 'o' :: 't' :: ';' :: decodeAmp r from fun r => rfl, ih]
    · simp only [encAfterGt, encAfterAmp, if_neg h1, if_neg h2, List.singleton_append]
      rw [decodeAmp_cons_of_ne c h1, ih]

/-- A pattern free of `&` and `"` starts the residual encoding exactly when
it starts the original text. -/
theorem isPrefixOf_mapConcat_encAfterAmp (pat : List Char)
    (hpat : ∀ c ∈ pat, c ≠ '&' ∧ c ≠ '"') (t : List Char) :
    List.isPrefixOf pat (mapConcat encAfterAmp t) = List.isPrefixOf pat t := by
  induction pat generalizing t with
  | nil => simp [List.isPrefixOf]
  | cons p ps ih =>
    cases t with
    | nil => rfl
    | cons c tl =>
      have hp := hpat p (by simp)
      simp only [mapConcat]
      by_cases h1 : c = '"'
      · subst h1
        have hp1 : (p == '&') = false := by simp [hp.1]
        have hp2 : (p == '"') = false := by simp [hp.2]
        show (p == '&' && List.isPrefixOf ps ('q' :: 'u' :: 'o' :: 't' :: ';' ::
          mapConcat encAfterAmp tl)) = (p == '"' && List.isPrefixOf ps tl)
        rw [hp1, hp2]
        simp
      · simp only [encAfterAmp, if_neg h1, List.singleton_append]
        show (p == c && List.isPrefixOf ps (mapConcat encAfterAmp tl)) =
          (p == c && List.isPrefixOf ps tl)
        rw [ih (fun x hx => hpat x (List.mem_cons_of_mem _ hx)) tl]

/-- Dropping the head preserves the absence of a substring. -/
theorem containsSeq_cons_false (pat : List Char) (c : Char) (tl : List Char)
    (h : containsSeq pat (c :: tl) = false) : containsSeq pat tl = false := by
  revert h
  simp [containsSeq]

/-- The fourth pass restores every encoded `"`, and restores nothing else
when the original text contains no literal `&quot;`. -/
theorem decodeQuot_mapConcat (s : List Char)
    (h : containsSeq "&quot;".data s = false) :
    decodeQuot (mapConcat encAfterAmp s) = s := by
  induction s with
  | nil => rfl
  | cons c tl ih =>
    have htl := containsSeq_cons_false _ _ _ h
    simp only [mapConcat]
    by_cases h1 : c = '"'
    · subst h1
      show decodeQuot ('&' :: 'q' :: 'u' :: 'o' :: 't' :: ';' :: mapConcat encAfterAmp tl) =
        '"' :: tl
      rw [show ∀ r, decodeQuot ('&' :: 'q' :: 'u' :: 'o' :: 't' :: ';' :: r) =
        '"' :: decodeQuot r from fun r => rfl, ih htl]
    by_cases h2 : c = '&'
    · subst h2
      have hpre : List.isPrefixOf ['q', 'u', 'o', 't', ';'] tl = false := by
        revert h
        simp [containsSeq, List.isPrefixOf]
        tauto
      have hpre2 : List.isPrefixOf ['q', 'u', 'o', 't', ';'] (mapConcat encAfterAmp tl) = false := by
        rw [isPrefixOf_mapConcat_encAfterAmp _ (by decide) tl]
        exact hpre
      show decodeQuot ('&' :: mapConcat encAfterAmp tl) = '&' :: tl
      rw [decodeQuot_amp_cons _ hpre2, ih htl]
    · simp only [encAfterAmp, if_neg h1, List.singleton_append]
      rw [decodeQuot_cons_of_ne c h2, ih htl]

/-- The decode chain of the source inverts the browser encoding exactly on
texts with no literal `&quot;`. -/
theorem decodeEntities_browserEncode (s : List Char)
    (h : containsSeq "&quot;".data s = false) :
    decodeEntities (browserEncode s) = s := by
  unfold decodeEntities browserEncode
  rw [decodeLt_mapConcat, decodeGt_mapConcat, decodeAmp_mapConcat, decodeQuot_mapConcat s h]

/-- The image of one encoded character contains no literal `<`. -/
theorem browserEncodeChar_no_lt (c x : Char) (hx : x ∈ browserEncodeChar c) : x ≠ '<' := by
  unfold browserEncodeChar at hx
  by_cases h1 : c = '&'
  · rw [if_pos h1] at hx
    intro hc; subst hc; revert hx; decide
  rw [if_neg h1] at hx
  by_cases h2 : c = '<'
  · rw [if_pos h2] at hx
    intro hc; subst hc; revert hx; decide
  rw [if_neg h2] at hx
  by_cases h3 : c = '>'
  · rw [if_pos h3] at hx
    intro hc; subst hc; revert hx; decide
  rw [if_neg h3] at hx
  by_cases h4 : c = '"'
  · rw [if_pos h4] at hx
    intro hc; subst hc; revert hx; decide
  rw [if_neg h4] at hx
  intro hc; subst hc
  simp at hx
  exact h2 hx.symm

/-- The browser encoding contains no literal `<`. -/
theorem browserEncode_no_lt (s : List Char) : ∀ c ∈ browserEncode s, c ≠ '<' := by
  induction s with
  | nil => simp [browserEncode, mapConcat]
  | cons c tl ih =>
    intro x hx
    rcases List.mem_append.mp hx with h | h
    · exact browserEncodeChar_no_lt c x h
    · exact ih x h

/-- `isPrefixOf` is reflexive. -/
theorem isPrefixOf_self_eq (l : List Char) : List.isPrefixOf l l = true := by
  induction l with
  | nil => rfl
  | cons c tl ih => simp [List.isPrefixOf, ih]

/-- Splitting at the first occurrence of `pat` when `pat` is appended after
characters that never begin it. -/
theorem splitAtFirst_exact (pat xs : List Char) (p : Char) (ps : List Char)
    (hp : pat = p :: ps) (hx : ∀ c ∈ xs, c ≠ p) :
    splitAtFirst pat (xs ++ pat) = some xs := by
  induction xs with
  | nil =>
    subst hp
    simp only [List.nil_append, splitAtFirst]
    rw [if_pos]
    exact isPrefixOf_self_eq _
  | cons x xs ih =>
    subst hp
    have hxp : ((p == x) = false) := by
      have := hx x (by simp)
      simp [BEq.comm]
      exact fun h => this h.symm
    simp only [List.cons_append, splitAtFirst]
    rw [if_neg (by simp [List.isPrefixOf, hxp])]
    simp only [List.append_eq]
    rw [ih (fun c hc => hx c (List.mem_cons_of_mem _ hc))]
    rfl

/-- The `<pre>` regex search on a rendered page returns exactly the encoded
body. -/
theorem tagSearch_renderPre (s : List Char) :
    tagSearch "<pre".data "</pre>".data (renderPre s) = some (browserEncode s) := by
  have h1 : tryTagAt "<pre".data "</pre>".data
      ('<' :: 'p' :: 'r' :: 'e' :: '>' :: (browserEncode s ++ "</pre>".data)) =
      some (browserEncode s) := by
    show splitAtFirst "</pre>".data (browserEncode s ++ "</pre>".data) = some (browserEncode s)
    exact splitAtFirst_exact _ _ '<' _ rfl (browserEncode_no_lt s)
  show tagSearch "<pre".data "</pre>".data
    ('<' :: 'p' :: 'r' :: 'e' :: '>' :: (browserEncode s ++ "</pre>".data)) =
    some (browserEncode s)
  rw [tagSearch, h1]

/-- C1 (amended): for every valid JSON document, rendered as its text
wrapped in a `<pre>` element with the four standard entities
browser-encoded, the extraction routine returns a value deep-equal to the
document — provided the document's text does not contain the literal
substring `&quot;` (the counterexample shows the proviso is necessary:
decoding replaces `&amp;` before `&quot;` and double-decodes such texts). -/
theorem c1_amended_entity_roundtrip (s : List Char) (d : Json)
    (hdoc : json_loads s = some d)
    (hquot : containsSeq "&quot;".data s = false) :
    extract_json (renderPre s) = some d := by
  unfold extract_json extract_json_text
  rw [tagSearch_renderPre s]
  show json_loads (decodeEntities (browserEncode s)) = some d
  rw [decodeEntities_browserEncode s hquot]
  exact hdoc

/-- Witness for C1: the document `"<>&"` (a string with the three literal
characters `<`, `>`, `&`) round-trips through the rendered page. -/
theorem c1_witness :
    json_loads "\"<>&\"".data = some (Json.str "<>&") ∧
    containsSeq "&quot;".data "\"<>&\"".data = false ∧
    extract_json (renderPre "\"<>&\"".data) = some (Json.str "<>&") :=
  ⟨rfl, rfl, c1_amended_entity_roundtrip _ _ rfl rfl⟩

/-! ## Idempotence of `sanitize_folder_name` (claim C3). -/

theorem char_toNat_ofNat (n : Nat) (h : n < 55296) : (Char.ofNat n).toNat = n := by
  simp [Char.ofNat, Nat.isValidChar, h, Char.ofNatAux, Char.toNat]
  rfl

/-- Lowercasing is idempotent. -/
theorem pyLowerChar_idem (c : Char) : pyLowerChar (pyLowerChar c) = pyLowerChar c := by
  by_cases h : 65 ≤ c.toNat ∧ c.toNat ≤ 90
  · have h1 : pyLowerChar c = Char.ofNat (c.toNat + 32) := by
      unfold pyLowerChar
      rw [if_pos h]
    have ht : (Char.ofNat (c.toNat + 32)).toNat = c.toNat + 32 :=
      char_toNat_ofNat _ (by omega)
    rw [h1]
    unfold pyLowerChar
    rw [if_neg (by rw [ht]; omega)]
  · have h1 : pyLowerChar c = c := by
      unfold pyLowerChar
      rw [if_neg h]
    rw [h1, h1]

/-- Characters produced by the sanitizing substitution are fixed by both the
lowercasing and the substitution itself. -/
theorem sanitized_char_fixed (c0 : Char) :
    pyLowerChar (subNonWordChar (pyLowerChar c0)) = subNonWordChar (pyLowerChar c0) ∧
    subNonWordChar (subNonWordChar (pyLowerChar c0)) = subNonWordChar (pyLowerChar c0) := by
  by_cases h : isWordChar (pyLowerChar c0) || pyLowerChar c0 == '-'
  · have h1 : subNonWordChar (pyLowerChar c0) = pyLowerChar c0 := by
      unfold subNonWordChar
      rw [if_pos h]
    rw [h1]
    exact ⟨pyLowerChar_idem c0, by unfold subNonWordChar; rw [if_pos h]⟩
  · have h1 : subNonWordChar (pyLowerChar c0) = '_' := by
      unfold subNonWordChar
      rw [if_neg h]
    rw [h1]
    exact ⟨by decide, by decide⟩

/-- Adjacent characters are not both underscores. -/
def noDblRel (a b : Char) : Prop := ¬(a = '_' ∧ b = '_')

/-- `collapseUnderscores` preserves the head character. -/
theorem collapse_head : ∀ (b : Char) (t : List Char),
    ∃ t2, collapseUnderscores (b :: t) = b :: t2
  | _, [] => ⟨[], rfl⟩
  | b, c :: t => by
    by_cases h : b = '_' ∧ c = '_'
    · obtain ⟨t2, ht⟩ := collapse_head c t
      rw [collapseUnderscores, if_pos h, ht]
      exact ⟨t2, by rw [h.1, h.2]⟩
    · rw [collapseUnderscores, if_neg h]
      exact ⟨collapseUnderscores (c :: t), rfl⟩

/-- The output of `collapseUnderscores` has no adjacent underscores. -/
theorem noDbl_collapse : ∀ l : List Char, List.Chain' noDblRel (collapseUnderscores l)
  | [] => by simp [collapseUnderscores]
  | [c] => by simp [collapseUnderscores]
  | a :: b :: t => by
    by_cases h : a = '_' ∧ b = '_'
    · rw [collapseUnderscores, if_pos h]
      exact noDbl_collapse (b :: t)
    · rw [collapseUnderscores, if_neg h]
      obtain ⟨t2, ht⟩ := collapse_head b t
      have hn := noDbl_collapse (b :: t)
      rw [ht] at hn ⊢
      exact List.chain'_cons.mpr ⟨h, hn⟩

/-- `collapseUnderscores` is the identity on lists without adjacent
underscores. -/
theorem collapse_eq_self : ∀ l : List Char, List.Chain' noDblRel l →
    collapseUnderscores l = l
  | [], _ => rfl
  | [_], _ => rfl
  | a :: b :: t, h => by
    rw [List.chain'_cons] at h
    rw [collapseUnderscores, if_neg h.1, collapse_eq_self (b :: t) h.2]

/-- Membership in the collapsed list implies membership in the original. -/
theorem mem_collapse : ∀ l : List Char, ∀ c ∈ collapseUnderscores l, c ∈ l
  | [] => by simp [collapseUnderscores]
  | [a] => by simp [collapseUnderscores]
  | a :: b :: t => by
    intro c hc
    by_cases h : a = '_' ∧ b = '_'
    · rw [collapseUnderscores, if_pos h] at hc
      exact List.mem_cons_of_mem _ (mem_collapse (b :: t) c hc)
    · rw [collapseUnderscores, if_neg h] at hc
      rcases List.mem_cons.mp hc with rfl | hc
      · simp
      · exact List.mem_cons_of_mem _ (mem_collapse (b :: t) c hc)

/-- Membership in the stripped list implies membership in the original. -/
theorem mem_stripUnderscore {c : Char} {l : List Char} (h : c ∈ stripUnderscore l) : c ∈ l := by
  unfold stripUnderscore at h
  have h1 := List.mem_reverse.mp h
  have h2 := (List.dropWhile_sublist _).subset h1
  have h3 := List.mem_reverse.mp h2
  exact (List.dropWhile_sublist _).subset h3

/-- `Chain'` survives `dropWhile`. -/
theorem chain'_dropWhile {R : Char → Char → Prop} (p : Char → Bool) :
    ∀ l : List Char, List.Chain' R l → List.Chain' R (List.dropWhile p l)
  | [], h => h
  | c :: t, h => by
    by_cases hc : p c
    · rw [List.dropWhile_cons_of_pos hc]
      exact chain'_dropWhile p t h.tail
    · rw [List.dropWhile_cons_of_neg hc]
      exact h

/-- `Chain' noDblRel` survives `reverse`. -/
theorem chain'_noDbl_reverse {l : List Char} (h : List.Chain' noDblRel l) :
    List.Chain' noDblRel l.reverse := by
  rw [List.chain'_reverse]
  exact h.imp (fun a b hab => fun hc => hab ⟨hc.2, hc.1⟩)

/-- The head of a `dropWhile` result falsifies the predicate. -/
theorem dropWhile_head?_false (p : Char → Bool) :
    ∀ l : List Char, ∀ x, (List.dropWhile p l).head? = some x → p x = false
  | [], x => by simp
  | c :: t, x => by
    intro h
    by_cases hc : p c
    · rw [List.dropWhile_cons_of_pos hc] at h
      exact dropWhile_head?_false p t x h
    · rw [List.dropWhile_cons_of_neg hc] at h
      simp at h
      subst h
      simpa using hc

/-- `dropWhile` is the identity when the head (if any) falsifies the
predicate. -/
theorem dropWhile_eq_self_of_head (p : Char → Bool) (l : List Char)
    (h : ∀ x, l.head? = some x → p x = false) : List.dropWhile p l = l := by
  cases l with
  | nil => rfl
  | cons c t =>
    have := h c rfl
    rw [List.dropWhile_cons_of_neg (by simp [this])]

/-- `dropWhile` does not change the last element. -/
theorem getLast?_dropWhile (p : Char → Bool) :
    ∀ l : List Char, List.dropWhile p l ≠ [] → (List.dropWhile p l).getLast? = l.getLast?
  | [], h => by simp at h
  | c :: t, h => by
    by_cases hc : p c
    · rw [List.dropWhile_cons_of_pos hc] at h ⊢
      have ht : t ≠ [] := by
        intro he
        rw [he] at h
        simp at h
      rw [getLast?_dropWhile p t h]
      cases t with
      | nil => exact absurd rfl ht
      | cons b t2 => rw [List.getLast?_cons_cons]
    · rw [List.dropWhile_cons_of_neg hc]

/-- Stripping leaves no leading underscore, so a second leading `dropWhile`
does nothing. -/
theorem dropWhile_stripUnderscore (l : List Char) :
    List.dropWhile (· == '_') (stripUnderscore l) = stripUnderscore l := by
  apply dropWhile_eq_self_of_head
  intro x hx
  unfold stripUnderscore at hx
  rw [← List.getLast?_eq_head?_reverse] at hx
  have hne : List.dropWhile (· == '_') (List.dropWhile (· == '_') l).reverse ≠ [] := by
    intro he
    rw [he] at hx
    simp at hx
  rw [getLast?_dropWhile _ _ hne] at hx
  rw [List.getLast?_eq_head?_reverse, List.reverse_reverse] at hx
  exact dropWhile_head?_false _ _ x hx

/-- `stripUnderscore` is idempotent. -/
theorem stripUnderscore_idem (l : List Char) :
    stripUnderscore (stripUnderscore l) = stripUnderscore l := by
  have hdw : ∀ m : List Char,
      List.dropWhile (· == '_') (List.dropWhile (· == '_') m) =
        List.dropWhile (· == '_') m :=
    fun m => dropWhile_eq_self_of_head _ _ (fun x hx => dropWhile_head?_false _ m x hx)
  show (((stripUnderscore l).dropWhile (· == '_')).reverse.dropWhile (· == '_')).reverse =
    stripUnderscore l
  rw [dropWhile_stripUnderscore l]
  show ((((l.dropWhile (· == '_')).reverse.dropWhile (· == '_')).reverse).reverse.dropWhile
    (· == '_')).reverse = stripUnderscore l
  rw [List.reverse_reverse, hdw]
  rfl

/-- A map fixing every member is the identity. -/
theorem map_id_of_mem {f : Char → Char} : ∀ l : List Char, (∀ c ∈ l, f c = c) → l.map f = l
  | [], _ => rfl
  | c :: t, h => by
    rw [List.map_cons, h c (by simp),
      map_id_of_mem t (fun x hx => h x (List.mem_cons_of_mem _ hx))]

/-- `Chain' noDblRel` survives stripping. -/
theorem chain'_stripUnderscore {l : List Char} (h : List.Chain' noDblRel l) :
    List.Chain' noDblRel (stripUnderscore l) := by
  unfold stripUnderscore
  exact chain'_noDbl_reverse (chain'_dropWhile _ _ (chain'_noDbl_reverse (chain'_dropWhile _ _ h)))

/-- C3 (amended): `sanitize_folder_name` is idempotent on every name that is
nonempty and whose sanitized form is nonempty.  (The counterexample shows
the two excluded cases are real: `sanitize("") = "Unknown"` re-sanitizes to
`"unknown"`, and a name of only underscores/punctuation sanitizes to `""`,
which re-sanitizes to `"Unknown"`.) -/
theorem c3_amended_idempotent (x : String) (hx : x ≠ "")
    (hs : sanitize_folder_name x ≠ "") :
    sanitize_folder_name (sanitize_folder_name x) = sanitize_folder_name x := by
  have hxdef : sanitize_folder_name x =
      String.mk (stripUnderscore (collapseUnderscores
        ((pyLower x.data).map subNonWordChar))) := by
    unfold sanitize_folder_name
    rw [if_neg hx]
  set L := stripUnderscore (collapseUnderscores ((pyLower x.data).map subNonWordChar)) with hL
  have hmem : ∀ c ∈ L, ∃ c0, c = subNonWordChar (pyLowerChar c0) := by
    intro c hc
    have h1 := mem_stripUnderscore hc
    have h2 := mem_collapse _ c h1
    obtain ⟨b, hb, hbc⟩ := List.mem_map.mp h2
    obtain ⟨c0, _, hc0b⟩ := List.mem_map.mp hb
    exact ⟨c0, by rw [← hbc, ← hc0b]⟩
  have hlow : pyLower L = L := by
    unfold pyLower
    apply map_id_of_mem
    intro c hc
    obtain ⟨c0, rfl⟩ := hmem c hc
    exact (sanitized_char_fixed c0).1
  have hsub : L.map subNonWordChar = L := by
    apply map_id_of_mem
    intro c hc
    obtain ⟨c0, rfl⟩ := hmem c hc
    exact (sanitized_char_fixed c0).2
  have hchain : List.Chain' noDblRel L := chain'_stripUnderscore (noDbl_collapse _)
  have hstrip : stripUnderscore L = L := by
    rw [hL]
    exact stripUnderscore_idem _
  have hsne : String.mk L ≠ "" := hxdef ▸ hs
  rw [hxdef]
  unfold sanitize_folder_name
  rw [if_neg hsne]
  show String.mk (stripUnderscore (collapseUnderscores
    ((pyLower L).map subNonWordChar))) = String.mk L
  rw [hlow, hsub, collapse_eq_self L hchain, hstrip]

/-- Witness for C3: `In Progress` is nonempty, sanitizes to the nonempty
`in_progress`, and sanitizing again is the identity. -/
theorem c3_witness :
    sanitize_folder_name (sanitize_folder_name "In Progress") =
      sanitize_folder_name "In Progress" :=
  c3_amended_idempotent "In Progress" (by decide) (by decide)
